import Mathlib

/-!
Shallow embedding of the `log-generator.py` / `log-seperator.py` utilities,
with theorems checking the natural-language specification against the code.

Conventions of the embedding:
* Python strings become `String`; machine integers become `Nat`/`Int`.
* Wall-clock time is passed explicitly (a `Tm` record instead of
  `time.localtime()`); sleeping is recorded in traces or accumulators
  instead of actually suspending.
* Socket I/O is abstracted by boolean oracles giving the outcome of each
  connect/send system call; prints become explicit lists of messages.
* Fallible code returns `Option`/`Except` or a dedicated result type.
-/

namespace LogGen

/-- Python `s.rstrip("\r\n")`: drop every trailing character that is a
carriage return or a newline. -/
def rstripCRLF (s : String) : String :=
  String.mk ((s.data.reverse.dropWhile (fun c => c == '\r' || c == '\n')).reverse)

/-- Python `os.path.basename`: the part of the path after the last slash. -/
def basename (s : String) : String :=
  String.mk ((s.data.reverse.takeWhile (fun c => c != '/')).reverse)

/-- `DEFAULT_ZEEK_TAGS`: the built-in Zeek filename-to-tag map of
`log-generator.py`, as an association list in source order. -/
def DEFAULT_ZEEK_TAGS : List (String × String) :=
  [("notice.log", "zeek_notice"),
   ("weird.log", "zeek_weird"),
   ("conn.log", "zeek_conn"),
   ("dns.log", "zeek_dns"),
   ("dhcp.log", "zeek_dhcp"),
   ("http.log", "zeek_http"),
   ("software.log", "zeek_software"),
   ("tunnel.log", "zeek_tunnel"),
   ("smtp.log", "zeek_smtp"),
   ("zeekker.log", "zeek_zeekker"),
   ("capture_loss.log", "zeek_capture_loss"),
   ("cluster.log", "zeek_cluster"),
   ("dce_rpc.log", "zeek_dce_rpc"),
   ("files.log", "zeek_files"),
   ("ftp.log", "zeek_ftp"),
   ("irc.log", "zeek_irc"),
   ("kerberos.log", "zeek_kerberos"),
   ("mysql.log", "zeek_mysql"),
   ("ntlm.log", "zeek_ntlm"),
   ("packet_filter.log", "zeek_packet_filter"),
   ("pe.log", "zeek_pe"),
   ("radius.log", "zeek_radius"),
   ("reporter.log", "zeek_reporter"),
   ("rdp.log", "zeek_rdp"),
   ("sip.log", "zeek_sip"),
   ("smb_files.log", "zeek_smb_files"),
   ("smb_mapping.log", "zeek_smb_mapping"),
   ("snmp.log", "zeek_snmp"),
   ("ssh.log", "zeek_ssh"),
   ("ssl.log", "zeek_ssl"),
   ("stats.log", "zeek_stats"),
   ("x509.log", "zeek_x509"),
   ("dpd.log", "zeek_dpd"),
   ("ocsp.log", "zeek_ocsp"),
   ("intel.log", "zeek_intel"),
   ("ldap.log", "zeek_ldap"),
   ("quic.log", "zeek_quic"),
   ("socks.log", "zeek_socks"),
   ("suricata_corelight.log", "zeek_suricata_corelight"),
   ("syslog.log", "zeek_syslog"),
   ("websocket.log", "zeek_websocket"),
   ("yara.log", "zeek_yara")]

/-- `_MONTHS` from `log-generator.py`. -/
def MONTHS : List String :=
  ["Jan", "Feb", "Mar", "Apr", "May", "Jun",
   "Jul", "Aug", "Sep", "Oct", "Nov", "Dec"]

/-- A `time.struct_time` restricted to the fields the formatter reads. -/
structure Tm where
  tm_mon : Nat
  tm_mday : Nat
  tm_hour : Nat
  tm_min : Nat
  tm_sec : Nat
deriving DecidableEq, Repr

/-- Python `f"{n:2d}"` on a natural number: right-align to width 2 with a
leading space; numbers of two or more digits are printed verbatim. -/
def padSpace2 (n : Nat) : String :=
  if n < 10 then " " ++ toString n else toString n

/-- Python `f"{n:02d}"` on a natural number: zero-pad to width 2. -/
def padZero2 (n : Nat) : String :=
  if n < 10 then "0" ++ toString n else toString n

/-- `rfc3164_timestamp`: `Mon DD HH:MM:SS`, with the struct time passed
explicitly instead of read from the wall clock. -/
def rfc3164_timestamp (now : Tm) : String :=
  let mon := MONTHS.getD (now.tm_mon - 1) ""
  let day := padSpace2 now.tm_mday
  mon ++ " " ++ day ++ " " ++ padZero2 now.tm_hour ++ ":" ++
    padZero2 now.tm_min ++ ":" ++ padZero2 now.tm_sec

/-- `calc_pri`. -/
def calc_pri (facility severity : Nat) : Nat :=
  facility * 8 + severity

/-- `format_rfc3164` (the wall-clock time is an explicit argument). -/
def format_rfc3164 (message hostname tag : String) (facility severity : Nat)
    (zeek_style : Bool) (now : Tm) : String :=
  let pri := calc_pri facility severity
  let ts := rfc3164_timestamp now
  let msg := rstripCRLF message
  if zeek_style then
    "<" ++ toString pri ++ ">" ++ ts ++ " " ++ hostname ++ " " ++ tag ++ " " ++ msg
  else
    "<" ++ toString pri ++ ">" ++ ts ++ " " ++ hostname ++ " " ++ tag ++ ": " ++ msg

/-- `format_raw`. -/
def format_raw (message : String) : String :=
  rstripCRLF message

/-- `StreamingLineSource`: the file is modelled as the list of successive
nonempty `readline` results (each line keeps its trailing newline, the
last one possibly not); `pos` is the read position of the open handle.
Reopening the same path yields the same list again. -/
structure StreamingLineSource where
  file_path : String
  lines : List String
  stop_at_eof : Bool
  pos : Nat
deriving DecidableEq, Repr

/-- Outcome of one `next_line` call. -/
inductive ReadResult where
  /-- a line is returned together with the advanced source -/
  | line (s : String) (src : StreamingLineSource)
  /-- `raise StopIteration` -/
  | stopIteration
  /-- `raise ValueError(...)`: the (re)opened file is empty -/
  | emptyFile (msg : String)
deriving DecidableEq, Repr

/-- `StreamingLineSource.next_line`: return the next `readline` result if
the file is not exhausted; at end of file either signal `StopIteration`
(`stop_at_eof` mode) or reopen the file from the start, failing if it is
empty. -/
def next_line (src : StreamingLineSource) : ReadResult :=
  match src.lines.get? src.pos with
  | some l => .line l { src with pos := src.pos + 1 }
  | none =>
    if src.stop_at_eof then
      .stopIteration
    else
      match src.lines with
      | [] => .emptyFile ("Error: File \x27" ++ src.file_path ++ "\x27 is empty.")
      | l :: _ => .line l { src with pos := 1 }

/-- Loop body of `ensure_tcp_connected`: `connectOk i` is the outcome of
the `i`-th `connect_tcp` attempt, `fuel` the remaining range iterations,
`backoff` the current sleep duration and `acc` the total sleep so far.
Returns whether a connection was obtained and the total time slept. -/
def ensureTcpGo (connectOk : Nat → Bool) (tcp_backoff_max : ℚ) :
    Nat → Nat → ℚ → ℚ → Bool × ℚ
  | 0, _, _, acc => (false, acc)
  | fuel + 1, i, backoff, acc =>
    if connectOk i then (true, acc)
    else ensureTcpGo connectOk tcp_backoff_max fuel (i + 1)
      (min tcp_backoff_max (backoff * 2)) (acc + backoff)

/-- `ensure_tcp_connected` for the case where no connection exists yet:
up to `tcp_retries` attempts, sleeping the current backoff after each
failure and then doubling it capped at `tcp_backoff_max`. -/
def ensure_tcp_connected (connectOk : Nat → Bool) (tcp_retries : Nat)
    (tcp_backoff_start tcp_backoff_max : ℚ) : Bool × ℚ :=
  ensureTcpGo connectOk tcp_backoff_max tcp_retries 0 tcp_backoff_start 0

/-- Observable outcome of one `send_one` call. -/
structure SendOneResult where
  /-- the boolean `send_one` returns -/
  ok : Bool
  /-- error messages printed during the call -/
  logs : List String
  /-- low-level socket send calls made with the payload -/
  sendAttempts : Nat
  /-- invocations of `ensure_tcp_connected` -/
  ensureCalls : Nat
  /-- the broken connection was closed and the handle cleared -/
  sockDiscarded : Bool
deriving DecidableEq, Repr

/-- `send_one`: `firstSendOk` is the outcome of the first low-level send,
`reconnectOk` of the `ensure_tcp_connected` call made after a TCP send
failure, `resendOk` of the retried send (the latter two are consulted
only on the paths that reach them). -/
def send_one (is_tcp : Bool) (firstSendOk reconnectOk resendOk : Bool) :
    SendOneResult :=
  if firstSendOk then ⟨true, [], 1, 0, false⟩
  else if is_tcp then
    if reconnectOk then
      if resendOk then ⟨true, [], 2, 1, true⟩
      else ⟨false, ["Error: TCP resend after reconnect failed"], 2, 1, true⟩
    else ⟨false, ["Error: TCP send failed and reconnect failed"], 1, 1, true⟩
  else ⟨true, [], 1, 0, false⟩

/-- Observable event of the burst loop of `send_file_once`. -/
inductive Ev where
  /-- a line was built into a wire payload and sent -/
  | send (line : String)
  /-- `time.sleep(burst_delay)` -/
  | sleepBurstDelay
deriving DecidableEq, Repr

/-- Burst loop of `send_file_once` (for runs in which every send
succeeds): each burst sends up to `eps` lines; a burst cut short by
`StopIteration` breaks out without sleeping; a complete burst is followed
by a `burst_delay` sleep when `delayPos` (that is, `burst_delay` is
nonzero). `fuel` bounds the number of bursts. -/
def burstTraceGo (eps : Nat) (delayPos : Bool) : Nat → List String → List Ev
  | 0, _ => []
  | fuel + 1, lines =>
    if lines.length < eps then
      lines.map Ev.send
    else
      (lines.take eps).map Ev.send ++
        (if delayPos then [Ev.sleepBurstDelay] else []) ++
        burstTraceGo eps delayPos fuel (lines.drop eps)

/-- Event trace of the burst branch of `send_file_once` on a file whose
line sequence is `lines` (all sends succeeding): `lines.length + 1` bursts
are always enough fuel when `eps > 0`. -/
def send_file_burst_events (eps : Nat) (delayPos : Bool)
    (lines : List String) : List Ev :=
  burstTraceGo eps delayPos (lines.length + 1) lines

/-- Per-line sending over one file for TCP, abstracting both pacing
branches of `send_file_once` (they treat send failures identically):
`oracle i` gives the `(firstSendOk, reconnectOk, resendOk)` outcomes for
line `i`; a `send_one` returning `False` raises
`RuntimeError("Fatal send error")`. -/
def send_lines_tcp (oracle : Nat → Bool × Bool × Bool) :
    Nat → List String → Except String Nat
  | _, [] => .ok 0
  | i, _ :: rest =>
    let r := send_one true (oracle i).1 (oracle i).2.1 (oracle i).2.2
    if r.ok then
      match send_lines_tcp oracle (i + 1) rest with
      | .ok n => .ok (n + 1)
      | .error e => .error e
    else .error "Fatal send error"

/-- One replay pass of the main loop over the resolved files (TCP): the
`RuntimeError` raised by `send_file_once` propagates and aborts the whole
pass, leaving the remaining files unsent. `oracle k i` gives the send
outcomes for line `i` of file `k`. -/
def run_files_tcp (oracle : Nat → Nat → Bool × Bool × Bool) :
    Nat → List (List String) → Except String (List Nat)
  | _, [] => .ok []
  | k, f :: fs =>
    match send_lines_tcp (oracle k) 0 f with
    | .error e => .error e
    | .ok n =>
      match run_files_tcp oracle (k + 1) fs with
      | .error e => .error e
      | .ok ns => .ok (n :: ns)

/-- The arguments `send_log` validates, with `files` standing for the
result of `expand_inputs` on `input_path`. -/
structure SendLogConfig where
  eps : Int
  count : Int
  fmt : String
  mode : String
  protocol : Int
  input_path : String
  files : List String
  stop_at_eof : Bool
deriving DecidableEq, Repr

/-- How far `send_log` gets before any sending happens. -/
inductive SendLogResult where
  /-- an error message is printed and `send_log` returns; nothing is sent -/
  | earlyReturn (msg : String)
  /-- the replay loop is reached and makes `replays` passes over the files -/
  | run (replays : Nat)
deriving DecidableEq, Repr

/-- The validation sequence of `send_log`, in source order, including the
`stop_at_eof` gate that precedes the replay loop. -/
def send_log_gate (c : SendLogConfig) : SendLogResult :=
  if c.eps ≤ 0 then .earlyReturn "Error: eps must be > 0."
  else if c.count ≤ 0 then .earlyReturn "Error: count must be > 0."
  else if c.fmt ≠ "rfc3164" ∧ c.fmt ≠ "raw" then
    .earlyReturn "Error: --format must be \x27rfc3164\x27 or \x27raw\x27"
  else if c.mode ≠ "paced" ∧ c.mode ≠ "burst" then
    .earlyReturn "Error: --mode must be \x27paced\x27 or \x27burst\x27"
  else if c.protocol ≠ 1 ∧ c.protocol ≠ 0 then
    .earlyReturn "Error: Invalid protocol. Use 1 for TCP or 0 for UDP."
  else if c.files = [] then
    .earlyReturn ("Error: No files found for \x27" ++ c.input_path ++ "\x27")
  else if c.stop_at_eof = false then
    .earlyReturn "Error: Please use --stop-at-eof (this script is designed for file-by-file sending)."
  else .run c.count.toNat

/-- The `__main__` block after successful argument parsing: `send_log` is
called (it never calls `sys.exit`; every error path prints and returns)
and the interpreter then falls off the end of the script, so the process
exit status is 0 in every case `send_log_gate` distinguishes. -/
def mainExitCode (c : SendLogConfig) : Nat :=
  match send_log_gate c with
  | .earlyReturn _ => 0
  | .run _ => 0

/-- `is_zeek_file`. -/
def is_zeek_file (fp : String) : Bool :=
  (DEFAULT_ZEEK_TAGS.lookup (basename fp)).isSome

/-- `pick_tag_for_file`: `cli_map` is the parsed `--service-map`,
`service` the `--service` fallback (`none` when absent; Python also
treats an empty string as falsy), `default_tag` the configured default. -/
def pick_tag_for_file (cli_map : List (String × String))
    (service : Option String) (default_tag : String) (fp : String) : String :=
  let base := basename fp
  match cli_map.lookup base with
  | some t => t
  | none =>
    match DEFAULT_ZEEK_TAGS.lookup base with
    | some t => t
    | none =>
      match service with
      | some s => if s = "" then default_tag else s
      | none => default_tag

/-- `os.path.splitext` on a plain file name (no directory separators):
split at the last dot, unless every character before that dot is itself a
dot (leading dots never start an extension). -/
def splitext (s : String) : String × String :=
  match s.data.reverse.findIdx? (fun c => c == '.') with
  | none => (s, "")
  | some j =>
    let i := s.data.length - 1 - j
    if (s.data.take i).any (fun c => c != '.') then
      (String.mk (s.data.take i), String.mk (s.data.drop i))
    else (s, "")

/-- Chunking loop of `split_log`: a new output file is opened whenever no
file is open or the current one holds `lines_per_file` lines; `fuel`
bounds the number of chunks. -/
def splitChunksGo (lines_per_file : Nat) : Nat → List String → List (List String)
  | 0, _ => []
  | _ + 1, [] => []
  | fuel + 1, l :: ls =>
    (l :: ls).take lines_per_file ::
      splitChunksGo lines_per_file fuel ((l :: ls).drop lines_per_file)

/-- The `stem` and effective extension computed once by `split_log` from
the input base name: `ext` falls back to `.log` when the name has no
extension. -/
def split_ext_effective (input_path : String) : String × String :=
  ((splitext (basename input_path)).1,
    if (splitext (basename input_path)).2 = "" then ".log"
    else (splitext (basename input_path)).2)

/-- `open_next_file`: the chunk file name `f"{stem}{part_idx}{ext}"` for
1-based `part_idx`. -/
def split_out_name (input_path : String) (part_idx : Nat) : String :=
  (split_ext_effective input_path).1 ++ toString part_idx ++
    (split_ext_effective input_path).2

/-- `split_log` from `log-seperator.py` as a pure function: from the
input file name and its line sequence (each line exactly as Python file
iteration yields it, trailing newline included) to the list of
(chunk file name, chunk lines) pairs in creation order. Chunk indices are
1-based; an empty input creates no output file. `lines_per_file ≤ 0`
raises `ValueError`. -/
def split_log (input_path : String) (lines_per_file : Int)
    (lines : List String) : Except String (List (String × List String)) :=
  if lines_per_file ≤ 0 then .error "lines_per_file must be > 0"
  else
    .ok ((splitChunksGo lines_per_file.toNat (lines.length + 1) lines).enum.map
      (fun p => (split_out_name input_path (p.1 + 1), p.2)))

/-- Modelled from the spec: the English month names, for the statement
that the RFC3164 timestamp abbreviates the month to the first three
letters of its English name. -/
def specMonthFull : List String :=
  ["January", "February", "March", "April", "May", "June",
   "July", "August", "September", "October", "November", "December"]

/-- Modelled from the spec: month `m` (1-based) abbreviated to the first
three letters of its English name. -/
def specMonthAbbrev (m : Nat) : String :=
  (specMonthFull.getD (m - 1) "").take 3

/-- Modelled from the spec: the day of month padded to width 2 using a
leading space (not zero) for single-digit days. -/
def specDayField (d : Nat) : String :=
  if d < 10 then " " ++ toString d else toString d

/-- Modelled from the spec: the `Mon DD HH:MM:SS` timestamp. -/
def specTimestamp (t : Tm) : String :=
  specMonthAbbrev t.tm_mon ++ " " ++ specDayField t.tm_mday ++ " " ++
    padZero2 t.tm_hour ++ ":" ++ padZero2 t.tm_min ++ ":" ++ padZero2 t.tm_sec

/-- Modelled from the spec: the RFC3164 envelope
`<PRI>TIMESTAMP HOSTNAME TAG: MESSAGE` (STANDARD style) or the same
without the colon after TAG (NO_COLON style), with
`PRI = facility*8 + severity` and MESSAGE the input line with trailing
newline/carriage-return characters stripped. -/
def specRfc3164 (message hostname tag : String) (facility severity : Nat)
    (noColon : Bool) (t : Tm) : String :=
  "<" ++ toString (facility * 8 + severity) ++ ">" ++ specTimestamp t ++ " " ++
    hostname ++ " " ++ tag ++ (if noColon then " " else ": ") ++ rstripCRLF message

/-- The lines sent in a burst-loop event trace, in order. -/
def evSends (t : List Ev) : List String :=
  t.filterMap (fun e => match e with | .send s => some s | .sleepBurstDelay => none)

/-- The number of `burst_delay` sleeps in a burst-loop event trace. -/
def evSleepCount (t : List Ev) : Nat :=
  t.countP (fun e => e == Ev.sleepBurstDelay)

/-- The running total of backoff sleeps requested by `ensure_tcp_connected`
after `k` failed attempts, starting from backoff `b`. -/
def sleepSum (tcp_backoff_max : ℚ) : ℚ → Nat → ℚ
  | _, 0 => 0
  | b, k + 1 => b + sleepSum tcp_backoff_max (min tcp_backoff_max (b * 2)) k

end LogGen

namespace LogGen

/-! ## Helper lemmas -/

theorem dropWhile_dropWhile_self (p : Char → Bool) (l : List Char) :
    (l.dropWhile p).dropWhile p = l.dropWhile p := by
  induction l with
  | nil => rfl
  | cons a l ih =>
    cases hpa : p a <;> simp [List.dropWhile_cons, hpa, ih]

theorem rstripCRLF_idem (s : String) :
    rstripCRLF (rstripCRLF s) = rstripCRLF s := by
  unfold rstripCRLF
  simp [dropWhile_dropWhile_self]

theorem evSends_map_send (l : List String) :
    evSends (l.map Ev.send) = l := by
  induction l with
  | nil => rfl
  | cons a l ih => simp [evSends, List.filterMap_cons] at ih ⊢; exact ih

/-! ## Claim C3 -/

/-- Claim C3 counterexample: on a file whose single `readline` result is
`"abc\n"`, `next_line` returns `"abc\n"` verbatim — not the stripped
`"abc"` — so the stripping does not happen at the Line Source interface. -/
theorem C3_counterexample :
    next_line ⟨"f.log", ["abc\n"], true, 0⟩ =
      .line "abc\n" ⟨"f.log", ["abc\n"], true, 1⟩ ∧
    rstripCRLF "abc\n" = "abc" ∧ ("abc\n" : String) ≠ "abc" := by
  refine ⟨by decide, by decide, by decide⟩

/-- Claim C3 (amended): `next_line` yields the stored `readline` result
verbatim, trailing newline included; the stripping of trailing
newline/carriage-return characters instead happens in the formatting
layer, which `send_file_once` applies to every line before sending:
`format_raw` returns exactly the stripped line, and both formatters are
invariant under pre-stripping their input. -/
theorem C3_strip_at_formatter :
    (∀ (fp : String) (lines : List String) (stop : Bool) (pos : Nat)
        (h : pos < lines.length),
        next_line ⟨fp, lines, stop, pos⟩ =
          .line (lines.get ⟨pos, h⟩) ⟨fp, lines, stop, pos + 1⟩) ∧
    (∀ s, format_raw s = rstripCRLF s) ∧
    (∀ s hostname tag fac sev z t,
        format_rfc3164 (rstripCRLF s) hostname tag fac sev z t =
          format_rfc3164 s hostname tag fac sev z t) := by
  refine ⟨?_, fun s => rfl, ?_⟩
  · intro fp lines stop pos h
    simp [next_line, List.getElem?_eq_getElem h]
  · intro s hostname tag fac sev z t
    simp [format_rfc3164, rstripCRLF_idem]

/-- Witness for C3: the amended theorem applied to a concrete two-line
source at position 1. -/
theorem C3_witness :
    next_line ⟨"f.log", ["abc\n", "d\n"], true, 1⟩ =
      .line "d\n" ⟨"f.log", ["abc\n", "d\n"], true, 2⟩ :=
  C3_strip_at_formatter.1 "f.log" ["abc\n", "d\n"] true 1 (by decide)

/-! ## Claim C4 -/

/-- Claim C4 counterexample: a failing datagram send (`firstSendOk =
false` with `is_tcp = false`) produces no log message at all — the
failure is silently swallowed — even though the call reports success and
the run continues. -/
theorem C4_counterexample :
    (send_one false false false false).logs = [] ∧
    (send_one false false false false).ok = true := by
  decide

/-- Claim C4 (amended): for datagram (UDP) transport a send failure is
silently ignored — no message is logged — and `send_one` reports success,
so the run continues with the next line; a UDP send failure never aborts
the run. -/
theorem C4_udp_best_effort (firstSendOk reconnectOk resendOk : Bool) :
    (send_one false firstSendOk reconnectOk resendOk).ok = true ∧
    (send_one false firstSendOk reconnectOk resendOk).logs = [] := by
  cases firstSendOk <;> simp [send_one]

/-! ## Claim C8 -/

theorem month_abbrev_eq (m : Nat) (h1 : 1 ≤ m) (h2 : m ≤ 12) :
    MONTHS.getD (m - 1) "" = specMonthAbbrev m := by
  interval_cases m <;> decide

theorem rfc3164_timestamp_eq_spec (t : Tm) (h1 : 1 ≤ t.tm_mon)
    (h2 : t.tm_mon ≤ 12) :
    rfc3164_timestamp t = specTimestamp t := by
  obtain ⟨mon, mday, hh, mm, ss⟩ := t
  simp only [rfc3164_timestamp, specTimestamp, specDayField, padSpace2]
  rw [month_abbrev_eq mon h1 h2]

/-- Claim C8: every line formatted in RFC3164 mode is exactly
`<PRI>TIMESTAMP HOSTNAME TAG: MESSAGE` (STANDARD style) or the same
without the colon after TAG (NO_COLON style), where
`PRI = facility*8 + severity`, the timestamp is `Mon DD HH:MM:SS` with
the day padded to width 2 with a leading space for single-digit days and
the month abbreviated to the first three letters of its English name, and
MESSAGE is the input line with trailing newline/carriage-return
characters stripped. -/
theorem C8_rfc3164_format (message hostname tag : String)
    (facility severity : Nat) (zeek_style : Bool) (t : Tm)
    (h1 : 1 ≤ t.tm_mon) (h2 : t.tm_mon ≤ 12) :
    format_rfc3164 message hostname tag facility severity zeek_style t =
      specRfc3164 message hostname tag facility severity zeek_style t := by
  simp only [format_rfc3164, specRfc3164, calc_pri,
    rfc3164_timestamp_eq_spec t h1 h2]
  cases zeek_style <;> simp [String.append_assoc]

/-- Witness for C8: the theorem applied at a concrete line and time. -/
theorem C8_witness :
    format_rfc3164 "hello\r\n" "host1" "mytag" 1 6 false ⟨12, 5, 13, 9, 59⟩ =
      specRfc3164 "hello\r\n" "host1" "mytag" 1 6 false ⟨12, 5, 13, 9, 59⟩ ∧
    specRfc3164 "hello\r\n" "host1" "mytag" 1 6 false ⟨12, 5, 13, 9, 59⟩ =
      "<14>Dec  5 13:09:59 host1 mytag: hello" :=
  ⟨C8_rfc3164_format "hello\r\n" "host1" "mytag" 1 6 false ⟨12, 5, 13, 9, 59⟩
    (by decide) (by decide), by decide⟩

/-! ## Claim C9 -/

/-- Claim C9: the delivery tag is chosen by the precedence chain CLI
per-filename override, then built-in filename-to-tag table, then CLI
fallback tag (`--service`, skipped when absent or empty, Python
truthiness), then configured default tag; and the NO_COLON (zeek) style
is applied exactly when the file base name is a key of the built-in
table, independent of which tag source won. -/
theorem C9_tag_precedence (cli_map : List (String × String))
    (service : Option String) (default_tag : String) (fp : String) :
    (∀ t, cli_map.lookup (basename fp) = some t →
        pick_tag_for_file cli_map service default_tag fp = t) ∧
    (cli_map.lookup (basename fp) = none →
      ∀ t, DEFAULT_ZEEK_TAGS.lookup (basename fp) = some t →
        pick_tag_for_file cli_map service default_tag fp = t) ∧
    (cli_map.lookup (basename fp) = none →
      DEFAULT_ZEEK_TAGS.lookup (basename fp) = none →
      ∀ s, service = some s → s ≠ "" →
        pick_tag_for_file cli_map service default_tag fp = s) ∧
    (cli_map.lookup (basename fp) = none →
      DEFAULT_ZEEK_TAGS.lookup (basename fp) = none →
      (service = none ∨ service = some "") →
      pick_tag_for_file cli_map service default_tag fp = default_tag) ∧
    (is_zeek_file fp = (DEFAULT_ZEEK_TAGS.lookup (basename fp)).isSome) := by
  refine ⟨?_, ?_, ?_, ?_, rfl⟩
  · intro t h
    simp [pick_tag_for_file, h]
  · intro h1 t h2
    simp [pick_tag_for_file, h1, h2]
  · intro h1 h2 s hs hne
    simp [pick_tag_for_file, h1, h2, hs, hne]
  · intro h1 h2 hs
    rcases hs with h | h <;> simp [pick_tag_for_file, h1, h2, h]

/-- Witness for C9: the spec scenario — `conn.log` with CLI override
`conn.log=custom` receives tag `custom`, not the built-in `zeek_conn`,
while its style variant remains NO_COLON (zeek). -/
theorem C9_witness :
    pick_tag_for_file [("conn.log", "custom")] none "trafficGenerator"
      "conn.log" = "custom" ∧
    is_zeek_file "conn.log" = true :=
  ⟨(C9_tag_precedence [("conn.log", "custom")] none "trafficGenerator"
      "conn.log").1 "custom" (by decide), by decide⟩

/-! ## Claim C1 -/

/-- Claim C1 counterexample: a configuration that passes every other
validation but has `stop_at_eof = false` makes `send_log` print an error
and return before the replay loop; it does not run `count = 5` iterations
(nor any), and the cycle-mode Line Source is never used. -/
theorem C1_counterexample :
    send_log_gate ⟨10, 5, "rfc3164", "paced", 1, "a.log", ["a.log"], false⟩ =
      .earlyReturn "Error: Please use --stop-at-eof (this script is designed for file-by-file sending)." ∧
    send_log_gate ⟨10, 5, "rfc3164", "paced", 1, "a.log", ["a.log"], false⟩ ≠
      .run 5 := by
  decide

/-- Claim C1 (amended): when `stopAtEndOfInput = false`, for every
otherwise valid configuration the run does not start at all: `send_log`
prints an error directing the user to `--stop-at-eof` and returns without
performing a single iteration (the scheduler only ever opens Line Sources
in replay-once mode). -/
theorem C1_no_stop_at_eof_rejected (c : SendLogConfig)
    (heps : 0 < c.eps) (hcount : 0 < c.count)
    (hfmt : c.fmt = "rfc3164" ∨ c.fmt = "raw")
    (hmode : c.mode = "paced" ∨ c.mode = "burst")
    (hproto : c.protocol = 1 ∨ c.protocol = 0)
    (hfiles : c.files ≠ [])
    (hstop : c.stop_at_eof = false) :
    send_log_gate c =
      .earlyReturn "Error: Please use --stop-at-eof (this script is designed for file-by-file sending)." := by
  have h1 : ¬ (c.eps ≤ 0) := not_le.mpr heps
  have h2 : ¬ (c.count ≤ 0) := not_le.mpr hcount
  have h3 : ¬ (c.fmt ≠ "rfc3164" ∧ c.fmt ≠ "raw") := by
    rcases hfmt with h | h <;> simp [h]
  have h4 : ¬ (c.mode ≠ "paced" ∧ c.mode ≠ "burst") := by
    rcases hmode with h | h <;> simp [h]
  have h5 : ¬ (c.protocol ≠ 1 ∧ c.protocol ≠ 0) := by
    rcases hproto with h | h <;> simp [h]
  unfold send_log_gate
  rw [if_neg h1, if_neg h2, if_neg h3, if_neg h4, if_neg h5, if_neg hfiles,
    if_pos hstop]

/-- Witness for C1 (amended): the theorem applied to a concrete
otherwise-valid configuration without `--stop-at-eof`. -/
theorem C1_witness :
    send_log_gate ⟨10, 3, "raw", "burst", 0, "b.log", ["b.log"], false⟩ =
      .earlyReturn "Error: Please use --stop-at-eof (this script is designed for file-by-file sending)." :=
  C1_no_stop_at_eof_rejected ⟨10, 3, "raw", "burst", 0, "b.log", ["b.log"], false⟩
    (by decide) (by decide) (Or.inr rfl) (Or.inr rfl) (Or.inr rfl)
    (by decide) rfl

/-! ## Claim C2 -/

/-- Claim C2 counterexample: for the configuration error `eps = 0` the
run does not start, but the process terminates with exit status 0, not a
non-zero status — `send_log` prints the message and returns normally. -/
theorem C2_counterexample :
    send_log_gate ⟨0, 5, "rfc3164", "paced", 1, "a.log", ["a.log"], true⟩ =
      .earlyReturn "Error: eps must be > 0." ∧
    mainExitCode ⟨0, 5, "rfc3164", "paced", 1, "a.log", ["a.log"], true⟩ = 0 := by
  decide

/-- Claim C2 (amended): for every configuration error — non-positive rate
(eps) or count, invalid format or mode enum value, invalid transport
selector, or an empty resolved file set — the run does not start
(`send_log` prints an error and returns before sending anything), but the
process terminates with exit status 0; a non-zero exit status occurs only
for usage errors caught before `send_log` is called. -/
theorem C2_config_error_exit_zero (c : SendLogConfig)
    (herr : c.eps ≤ 0 ∨ c.count ≤ 0 ∨ (c.fmt ≠ "rfc3164" ∧ c.fmt ≠ "raw") ∨
      (c.mode ≠ "paced" ∧ c.mode ≠ "burst") ∨
      (c.protocol ≠ 1 ∧ c.protocol ≠ 0) ∨ c.files = []) :
    (∃ msg, send_log_gate c = .earlyReturn msg) ∧ mainExitCode c = 0 := by
  constructor
  · unfold send_log_gate
    split_ifs with h1 h2 h3 h4 h5 h6 h7
    any_goals exact ⟨_, rfl⟩
    exfalso
    rcases herr with h | h | h | h | h | h
    exacts [h1 h, h2 h, h3 h, h4 h, h5 h, h6 h]
  · unfold mainExitCode
    cases send_log_gate c <;> rfl

/-- Witness for C2 (amended): the theorem applied to a configuration with
a non-positive eps. -/
theorem C2_witness :
    (∃ msg, send_log_gate ⟨0, 5, "rfc3164", "paced", 1, "a.log", ["a.log"], true⟩ =
      .earlyReturn msg) ∧
    mainExitCode ⟨0, 5, "rfc3164", "paced", 1, "a.log", ["a.log"], true⟩ = 0 :=
  C2_config_error_exit_zero ⟨0, 5, "rfc3164", "paced", 1, "a.log", ["a.log"], true⟩
    (Or.inl (by decide))

/-! ## Claim C7 -/

theorem ensureTcpGo_all_fail (connectOk : Nat → Bool) (maxB : ℚ) :
    ∀ (fuel i : Nat) (backoff acc : ℚ),
      (∀ j, j < fuel → connectOk (i + j) = false) →
      (ensureTcpGo connectOk maxB fuel i backoff acc).1 = false := by
  intro fuel
  induction fuel with
  | zero => intro i backoff acc _; rfl
  | succ n ih =>
    intro i backoff acc h
    have h0 : connectOk i = false := by simpa using h 0 (Nat.succ_pos n)
    rw [ensureTcpGo, if_neg (by simp [h0])]
    exact ih (i + 1) _ _ (fun j hj => by
      rw [show i + 1 + j = i + (j + 1) by omega]
      exact h (j + 1) (Nat.succ_lt_succ hj))

theorem ensureTcpGo_succeeds (connectOk : Nat → Bool) (maxB : ℚ) :
    ∀ (k fuel i : Nat) (backoff acc : ℚ), k < fuel →
      (∀ j, j < k → connectOk (i + j) = false) → connectOk (i + k) = true →
      ensureTcpGo connectOk maxB fuel i backoff acc =
        (true, acc + sleepSum maxB backoff k) := by
  intro k
  induction k with
  | zero =>
    intro fuel i backoff acc hf _ hs
    obtain ⟨m, rfl⟩ := Nat.exists_eq_add_of_lt hf
    rw [ensureTcpGo, if_pos (by simpa using hs), sleepSum, add_zero]
  | succ n ih =>
    intro fuel i backoff acc hf hfail hs
    obtain ⟨m, rfl⟩ := Nat.exists_eq_add_of_lt hf
    have h0 : connectOk i = false := by simpa using hfail 0 (Nat.succ_pos n)
    rw [ensureTcpGo, if_neg (by simp [h0])]
    rw [ih (n + 1 + m) (i + 1) _ _ (by omega)
      (fun j hj => by
        rw [show i + 1 + j = i + (j + 1) by omega]
        exact hfail (j + 1) (Nat.succ_lt_succ hj))
      (by rw [show i + 1 + n = i + (n + 1) by omega]; exact hs)]
    rw [sleepSum, add_assoc]

theorem sleepSum_eq_capped_sum (maxB : ℚ) :
    ∀ (k : Nat) (b : ℚ), 0 ≤ b → b ≤ maxB →
      sleepSum maxB b k = ∑ i in Finset.range k, min maxB (b * 2 ^ i) := by
  intro k
  induction k with
  | zero => intro b _ _; simp [sleepSum]
  | succ n ih =>
    intro b hb hbm
    have hmax0 : 0 ≤ maxB := le_trans hb hbm
    have h2 : (0:ℚ) ≤ b * 2 := by positivity
    rw [sleepSum, ih (min maxB (b * 2)) (le_min hmax0 h2) (min_le_left _ _)]
    have hterm : ∀ i : Nat,
        min maxB (min maxB (b * 2) * 2 ^ i) = min maxB (b * 2 ^ (i + 1)) := by
      intro i
      have h2i : (1:ℚ) ≤ 2 ^ i := by
        have h := Nat.one_le_two_pow (n := i)
        exact_mod_cast h
      rcases le_total (b * 2) maxB with h | h
      · rw [min_eq_right h]
        congr 1
        ring
      · rw [min_eq_left h, min_eq_left (le_mul_of_one_le_right hmax0 h2i),
          min_eq_left (le_trans h (by
            calc b * 2 = b * 2 * 1 := by ring
              _ ≤ b * 2 * 2 ^ i := mul_le_mul_of_nonneg_left h2i h2
              _ = b * 2 ^ (i + 1) := by ring))]
    simp only [hterm]
    rw [Finset.sum_range_succ']
    simp only [pow_zero, mul_one]
    rw [min_eq_right hbm, add_comm]

/-- Claim C7: if connection attempts `0..k-1` fail and attempt `k`
succeeds within the retry limit, `ensure_tcp_connected` returns success
and the total backoff sleep requested equals the sum of
`initial * 2^i` for `i = 0..k-1` with each term capped at the configured
maximum; it returns failure only after all attempts are exhausted. -/
theorem C7_ensure_connected_backoff (connectOk : Nat → Bool)
    (tcp_retries k : Nat) (start maxB : ℚ)
    (h0 : 0 ≤ start) (hsm : start ≤ maxB) :
    (k < tcp_retries → (∀ i, i < k → connectOk i = false) →
      connectOk k = true →
      ensure_tcp_connected connectOk tcp_retries start maxB =
        (true, ∑ i in Finset.range k, min maxB (start * 2 ^ i))) ∧
    ((∀ i, i < tcp_retries → connectOk i = false) →
      (ensure_tcp_connected connectOk tcp_retries start maxB).1 = false) := by
  constructor
  · intro hk hf hs
    unfold ensure_tcp_connected
    rw [ensureTcpGo_succeeds connectOk maxB k tcp_retries 0 start 0 hk
      (fun j hj => by simpa using hf j hj) (by simpa using hs)]
    rw [sleepSum_eq_capped_sum maxB k start h0 hsm, zero_add]
  · intro hall
    unfold ensure_tcp_connected
    exact ensureTcpGo_all_fail connectOk maxB tcp_retries 0 start 0
      (fun j hj => by simpa using hall j hj)

/-- Witness for C7: the spec scenario — 3 connect attempts fail and the
4th succeeds, within a limit of 10 retries, initial backoff `1/4`,
cap `3`: success, and the total sleep is
`initial + 2*initial + 4*initial = 7/4` (no term reaches the cap). -/
theorem C7_witness :
    ensure_tcp_connected (fun i => i == 3) 10 (1/4) 3 = (true, 7/4) := by
  have h := (C7_ensure_connected_backoff (fun i => i == 3) 10 3 (1/4) 3
    (by norm_num) (by norm_num)).1 (by norm_num)
    (by intro i hi; interval_cases i <;> rfl) rfl
  rw [h]
  norm_num [Finset.sum_range_succ, min_def]

/-! ## Claim C5 -/

theorem burstTraceGo_nil (eps : Nat) (d : Bool) (fuel : Nat) (heps : 0 < eps) :
    burstTraceGo eps d fuel [] = [] := by
  cases fuel with
  | zero => rfl
  | succ n => simp [burstTraceGo, heps]

theorem evSends_append (a b : List Ev) :
    evSends (a ++ b) = evSends a ++ evSends b := by
  simp [evSends, List.filterMap_append]

theorem evSleepCount_append (a b : List Ev) :
    evSleepCount (a ++ b) = evSleepCount a + evSleepCount b := by
  simp [evSleepCount, List.countP_append]

theorem evSleepCount_map_send (l : List String) :
    evSleepCount (l.map Ev.send) = 0 := by
  induction l with
  | nil => rfl
  | cons a l ih => simp [evSleepCount, List.countP_cons] at ih ⊢

theorem burstTraceGo_sends (eps : Nat) (d : Bool) (heps : 0 < eps) :
    ∀ (fuel : Nat) (lines : List String), lines.length < fuel * eps →
      evSends (burstTraceGo eps d fuel lines) = lines := by
  intro fuel
  induction fuel with
  | zero => intro lines h; simp at h
  | succ n ih =>
    intro lines h
    rw [burstTraceGo]
    by_cases hle : lines.length < eps
    · rw [if_pos hle]
      exact evSends_map_send lines
    · rw [if_neg hle]
      rw [evSends_append, evSends_append, evSends_map_send]
      have hdl : (lines.drop eps).length = lines.length - eps :=
        List.length_drop eps lines
      have hrec : evSends (burstTraceGo eps d n (lines.drop eps)) =
          lines.drop eps := by
        apply ih
        have hmul : (n + 1) * eps = n * eps + eps := Nat.succ_mul n eps
        rw [hmul] at h
        rw [hdl]
        set M := n * eps with hM
        omega
      rw [hrec]
      have hsleep : evSends (if d then [Ev.sleepBurstDelay] else []) = [] := by
        cases d <;> rfl
      rw [hsleep, List.append_nil, List.take_append_drop]

theorem burstTraceGo_sleeps (eps : Nat) (d : Bool) (heps : 0 < eps) :
    ∀ (fuel : Nat) (lines : List String), lines.length < fuel * eps →
      evSleepCount (burstTraceGo eps d fuel lines) =
        (if d then lines.length / eps else 0) := by
  intro fuel
  induction fuel with
  | zero => intro lines h; simp at h
  | succ n ih =>
    intro lines h
    rw [burstTraceGo]
    by_cases hle : lines.length < eps
    · rw [if_pos hle, evSleepCount_map_send, Nat.div_eq_of_lt hle]
      cases d <;> rfl
    · rw [if_neg hle]
      rw [evSleepCount_append, evSleepCount_append, evSleepCount_map_send]
      have hdl : (lines.drop eps).length = lines.length - eps :=
        List.length_drop eps lines
      have hrec := ih (lines.drop eps) (by
        have hmul : (n + 1) * eps = n * eps + eps := Nat.succ_mul n eps
        rw [hmul] at h
        rw [hdl]
        set M := n * eps with hM
        omega)
      rw [hrec, hdl]
      have hdiv : lines.length / eps = (lines.length - eps) / eps + 1 :=
        Nat.div_eq_sub_div heps (not_lt.mp hle)
      cases d
      · simp [evSleepCount]
      · simp [evSleepCount, List.countP_cons, hdiv]
        omega

theorem getLast?_map_send (l : List String) (hne : l ≠ []) :
    ∃ s, (l.map Ev.send).getLast? = some (Ev.send s) := by
  induction l with
  | nil => exact absurd rfl hne
  | cons a l ih =>
    cases l with
    | nil => exact ⟨a, rfl⟩
    | cons b t =>
      obtain ⟨s, hs⟩ := ih (by simp)
      refine ⟨s, ?_⟩
      rw [List.map_cons] at hs ⊢
      rw [List.map_cons, List.getLast?_cons_cons]
      exact hs

theorem burstTraceGo_ne_nil (eps : Nat) (d : Bool) (heps : 0 < eps)
    (fuel : Nat) (lines : List String) (h : lines.length < fuel * eps)
    (hne : lines ≠ []) : burstTraceGo eps d fuel lines ≠ [] := by
  cases fuel with
  | zero => simp at h
  | succ n =>
    rw [burstTraceGo]
    by_cases hle : lines.length < eps
    · rw [if_pos hle]
      simpa using hne
    · rw [if_neg hle]
      have htake : lines.take eps ≠ [] := by
        simp only [ne_eq, List.take_eq_nil_iff]
        push_neg
        exact ⟨by omega, hne⟩
      intro hc
      rw [List.append_eq_nil, List.append_eq_nil] at hc
      have hmap : lines.take eps = [] := by
        have h1 := hc.1.1
        simpa using h1
      exact htake hmap

theorem burstTraceGo_last_sleep (eps : Nat) (heps : 0 < eps) :
    ∀ (fuel : Nat) (lines : List String), lines.length < fuel * eps →
      lines ≠ [] →
      ((burstTraceGo eps true fuel lines).getLast? =
          some Ev.sleepBurstDelay ↔ eps ∣ lines.length) := by
  intro fuel
  induction fuel with
  | zero => intro lines h _; simp at h
  | succ n ih =>
    intro lines h hne
    have hpos : 0 < lines.length := List.length_pos.mpr hne
    rw [burstTraceGo]
    by_cases hle : lines.length < eps
    · rw [if_pos hle]
      obtain ⟨s, hs⟩ := getLast?_map_send lines hne
      rw [hs]
      constructor
      · intro hx
        simp at hx
      · intro hdvd
        exact absurd (Nat.le_of_dvd hpos hdvd) (by omega)
    · rw [if_neg hle]
      have hge : eps ≤ lines.length := not_lt.mp hle
      have hbound : (lines.drop eps).length < n * eps := by
        have hmul : (n + 1) * eps = n * eps + eps := Nat.succ_mul n eps
        rw [hmul] at h
        rw [List.length_drop]
        set M := n * eps with hM
        omega
      by_cases hdrop : lines.drop eps = []
      · rw [hdrop, burstTraceGo_nil eps true n heps, List.append_nil]
        have hlen : lines.length = eps := by
          have hdl : (lines.drop eps).length = lines.length - eps :=
            List.length_drop eps lines
          rw [hdrop] at hdl
          simp only [List.length_nil] at hdl
          omega
        rw [List.getLast?_append_of_ne_nil _ (by simp)]
        simp [hlen]
      · have hrecne : burstTraceGo eps true n (lines.drop eps) ≠ [] :=
          burstTraceGo_ne_nil eps true heps n (lines.drop eps) hbound hdrop
        rw [List.getLast?_append_of_ne_nil _ hrecne,
          ih (lines.drop eps) hbound hdrop, List.length_drop]
        constructor
        · intro hd
          have hsplit : lines.length = (lines.length - eps) + eps :=
            (Nat.sub_add_cancel hge).symm
          rw [hsplit]
          exact Nat.dvd_add hd (dvd_refl eps)
        · intro hd
          exact Nat.dvd_sub' hd (dvd_refl eps)

/-- Claim C5 counterexample: BURST mode, `eps = 1`, a nonzero burst
delay, a one-line file: the burst-delay sleep occurs right after the
last (and only) line is sent — `EndOfInput` is only discovered by the
next, empty, burst — so the trace ends in a sleep. -/
theorem C5_counterexample :
    send_file_burst_events 1 true ["a"] = [Ev.send "a", Ev.sleepBurstDelay] ∧
    (send_file_burst_events 1 true ["a"]).getLast? = some Ev.sleepBurstDelay := by
  decide

/-- Claim C5 (amended): in BURST mode with `stop_at_eof = true`, a final
strictly partial burst is sent without a following burst-delay sleep; but
when the file line count is a positive multiple of `eps`, a burst-delay
sleep does follow the burst containing the last line (end of input is
only signalled in a subsequent empty burst). Precisely: the trace sends
exactly the file lines in order, contains `⌊lineCount / eps⌋` burst-delay
sleeps when the delay is nonzero (none otherwise), and for a nonempty
file with delay enabled it ends in a sleep iff `eps` divides the line
count. -/
theorem C5_burst_delay (eps : Nat) (delayPos : Bool) (lines : List String)
    (heps : 0 < eps) :
    evSends (send_file_burst_events eps delayPos lines) = lines ∧
    evSleepCount (send_file_burst_events eps delayPos lines) =
      (if delayPos then lines.length / eps else 0) ∧
    (lines ≠ [] →
      ((send_file_burst_events eps true lines).getLast? =
          some Ev.sleepBurstDelay ↔ eps ∣ lines.length)) := by
  have hfuel : lines.length < (lines.length + 1) * eps := by
    calc lines.length < lines.length + 1 := Nat.lt_succ_self _
      _ = (lines.length + 1) * 1 := (mul_one _).symm
      _ ≤ (lines.length + 1) * eps := Nat.mul_le_mul_left _ heps
  unfold send_file_burst_events
  exact ⟨burstTraceGo_sends eps delayPos heps _ lines hfuel,
    burstTraceGo_sleeps eps delayPos heps _ lines hfuel,
    fun hne => burstTraceGo_last_sleep eps heps _ lines hfuel hne⟩

/-- Witness for C5 (amended): a three-line file sent with bursts of two —
all three lines are sent and exactly one burst-delay sleep happens (after
the first, complete, burst; none after the final partial burst). -/
theorem C5_witness :
    evSends (send_file_burst_events 2 true ["a", "b", "c"]) = ["a", "b", "c"] ∧
    evSleepCount (send_file_burst_events 2 true ["a", "b", "c"]) = 1 := by
  have h := C5_burst_delay 2 true ["a", "b", "c"] (by decide)
  exact ⟨h.1, by simpa using h.2.1⟩

/-! ## Claim C6 -/

/-- Claim C6: for stream (TCP) transport, on a write failure `send_one`
discards the broken connection, invokes `ensure_tcp_connected` exactly
once, and — if reconnection succeeds — retries the same payload exactly
once (a second low-level send); a second write failure, or a failed
reconnection, makes `send_one` report failure, which raises
`RuntimeError("Fatal send error")` in `send_file_once` and aborts the
entire run (the remaining lines and files are not sent). -/
theorem C6_tcp_send_failure :
    (∀ reconnectOk resendOk : Bool,
      (send_one true false reconnectOk resendOk).sockDiscarded = true ∧
      (send_one true false reconnectOk resendOk).ensureCalls = 1) ∧
    (∀ resendOk : Bool,
      (send_one true false true resendOk).sendAttempts = 2) ∧
    ((send_one true false true false).ok = false) ∧
    (∀ resendOk : Bool, (send_one true false false resendOk).ok = false) ∧
    (∀ (oracle : Nat → Bool × Bool × Bool) (i : Nat) (s : String)
        (rest : List String),
      (send_one true (oracle i).1 (oracle i).2.1 (oracle i).2.2).ok = false →
      send_lines_tcp oracle i (s :: rest) = .error "Fatal send error") ∧
    (∀ (oracle : Nat → Nat → Bool × Bool × Bool) (k : Nat)
        (f : List String) (fs : List (List String)) (e : String),
      send_lines_tcp (oracle k) 0 f = .error e →
      run_files_tcp oracle k (f :: fs) = .error e) := by
  refine ⟨?_, ?_, rfl, ?_, ?_, ?_⟩
  · intro reconnectOk resendOk
    cases reconnectOk <;> cases resendOk <;> simp [send_one]
  · intro resendOk
    cases resendOk <;> rfl
  · intro resendOk
    rfl
  · intro oracle i s rest hfail
    rw [send_lines_tcp]
    simp only [hfail]
    rfl
  · intro oracle k f fs e hfail
    rw [run_files_tcp, hfail]

/-- Witness for C6: a run over two files in which the first send of the
first file fails, reconnection succeeds but the resend fails too — the
whole run aborts with the fatal send error and the second file is never
sent. -/
theorem C6_witness :
    run_files_tcp (fun _ _ => (false, true, false)) 0 [["x"], ["y"]] =
      .error "Fatal send error" :=
  C6_tcp_send_failure.2.2.2.2.2 (fun _ _ => (false, true, false)) 0 ["x"]
    [["y"]] "Fatal send error"
    (C6_tcp_send_failure.2.2.2.2.1 (fun _ => (false, true, false)) 0 "x" []
      (by decide))

/-! ## Claim C10 -/

theorem splitChunksGo_nil (lpf fuel : Nat) :
    splitChunksGo lpf fuel [] = [] := by
  cases fuel <;> rfl

theorem splitChunksGo_join (lpf : Nat) (hpos : 0 < lpf) :
    ∀ (fuel : Nat) (lines : List String), lines.length ≤ fuel →
      (splitChunksGo lpf fuel lines).flatten = lines := by
  intro fuel
  induction fuel with
  | zero =>
    intro lines h
    have hnil : lines = [] := List.length_eq_zero.mp (by omega)
    subst hnil
    rfl
  | succ n ih =>
    intro lines h
    cases lines with
    | nil => rfl
    | cons l ls =>
      rw [splitChunksGo, List.flatten_cons]
      rw [ih ((l :: ls).drop lpf) (by
        rw [List.length_drop]
        simp only [List.length_cons] at h ⊢
        omega)]
      exact List.take_append_drop lpf (l :: ls)

theorem splitChunksGo_length (lpf : Nat) (hpos : 0 < lpf) :
    ∀ (fuel : Nat) (lines : List String), lines.length ≤ fuel →
      (splitChunksGo lpf fuel lines).length =
        (lines.length + lpf - 1) / lpf := by
  intro fuel
  induction fuel with
  | zero =>
    intro lines h
    have hnil : lines = [] := List.length_eq_zero.mp (by omega)
    subst hnil
    simp [splitChunksGo_nil, Nat.div_eq_of_lt (by omega : lpf - 1 < lpf)]
  | succ n ih =>
    intro lines h
    cases lines with
    | nil => simp [splitChunksGo_nil, Nat.div_eq_of_lt (by omega : lpf - 1 < lpf)]
    | cons l ls =>
      rw [splitChunksGo]
      simp only [List.length_cons]
      rw [ih ((l :: ls).drop lpf) (by
        rw [List.length_drop]
        simp only [List.length_cons] at h ⊢
        omega)]
      rw [List.length_drop]
      simp only [List.length_cons]
      have hdiv : (ls.length + 1 + lpf - 1) / lpf = (ls.length + 1 - 1) / lpf + 1 := by
        have hx := Nat.div_eq_sub_div hpos
          (show lpf ≤ ls.length + 1 + lpf - 1 by omega)
        rw [show ls.length + 1 + lpf - 1 - lpf = ls.length + 1 - 1 by omega] at hx
        exact hx
      rw [hdiv]
      by_cases hcase : lpf ≤ ls.length + 1
      · rw [show ls.length + 1 - lpf + lpf - 1 = ls.length + 1 - 1 by omega]
      · rw [show ls.length + 1 - lpf = 0 by omega,
          Nat.div_eq_of_lt (by omega : 0 + lpf - 1 < lpf),
          Nat.div_eq_of_lt (by omega : ls.length + 1 - 1 < lpf)]

theorem splitChunksGo_mem (lpf : Nat) (hpos : 0 < lpf) :
    ∀ (fuel : Nat) (lines : List String), lines.length ≤ fuel →
      ∀ c ∈ splitChunksGo lpf fuel lines, c.length ≤ lpf ∧ c ≠ [] := by
  intro fuel
  induction fuel with
  | zero =>
    intro lines h c hc
    have hnil : lines = [] := List.length_eq_zero.mp (by omega)
    subst hnil
    rw [splitChunksGo_nil] at hc
    simp at hc
  | succ n ih =>
    intro lines h c hc
    cases lines with
    | nil => simp [splitChunksGo_nil] at hc
    | cons l ls =>
      rw [splitChunksGo] at hc
      rcases List.mem_cons.mp hc with h1 | h1
      · subst h1
        refine ⟨List.length_take_le lpf (l :: ls), ?_⟩
        simp only [ne_eq, List.take_eq_nil_iff]
        push_neg
        exact ⟨by omega, by simp⟩
      · exact ih ((l :: ls).drop lpf) (by
          rw [List.length_drop]
          simp only [List.length_cons] at h ⊢
          omega) c h1

theorem splitChunksGo_dropLast (lpf : Nat) (hpos : 0 < lpf) :
    ∀ (fuel : Nat) (lines : List String), lines.length ≤ fuel →
      ∀ c ∈ (splitChunksGo lpf fuel lines).dropLast, c.length = lpf := by
  intro fuel
  induction fuel with
  | zero =>
    intro lines h c hc
    have hnil : lines = [] := List.length_eq_zero.mp (by omega)
    subst hnil
    rw [splitChunksGo_nil] at hc
    simp at hc
  | succ n ih =>
    intro lines h c hc
    cases lines with
    | nil => simp [splitChunksGo_nil] at hc
    | cons l ls =>
      rw [splitChunksGo] at hc
      by_cases hrec : splitChunksGo lpf n ((l :: ls).drop lpf) = []
      · rw [hrec] at hc
        simp at hc
      · rw [List.dropLast_cons_of_ne_nil hrec] at hc
        rcases List.mem_cons.mp hc with h1 | h1
        · subst h1
          have hdropne : (l :: ls).drop lpf ≠ [] := by
            intro hx
            exact hrec (by rw [hx]; exact splitChunksGo_nil lpf n)
          have hlen : lpf < (l :: ls).length := by
            by_contra hx
            exact hdropne (List.drop_eq_nil_iff.mpr (by omega))
          rw [List.length_take]
          exact min_eq_left (le_of_lt hlen)
        · exact ih ((l :: ls).drop lpf) (by
            rw [List.length_drop]
            simp only [List.length_cons] at h ⊢
            omega) c h1

/-- Claim C10 counterexample: an input named `foo` — no dot, so its stem
is `foo` and its extension is the empty string — is split into chunks
named `foo1.log`, `foo2.log`, not `foo1`, `foo2` as
"stem + index + extension" dictates: the code substitutes `.log` when the
input name has no extension. -/
theorem C10_counterexample :
    split_log "foo" 2 ["a\n", "b\n", "c\n"] =
      .ok [("foo1.log", ["a\n", "b\n"]), ("foo2.log", ["c\n"])] ∧
    splitext (basename "foo") = ("foo", "") ∧
    ("foo1.log" : String) ≠ "foo" ++ "1" ++ "" := by
  refine ⟨rfl, by decide, by decide⟩

/-- Claim C10 (amended): for every input file and every
`lines_per_file > 0`, `split_log` writes exactly
`⌈totalLines / lines_per_file⌉` chunk files named stem + consecutive
1-based index + extension — where an input base name without an extension
uses `.log` as the extension — every chunk except possibly the last holds
exactly `lines_per_file` lines (no chunk is empty or larger), the
concatenation of the chunks in index order equals the input line
sequence, and an input with zero lines produces no output file. -/
theorem C10_split_log (input_path : String) (lpf : Int)
    (lines : List String) (hpos : 0 < lpf) :
    ∃ chunks : List (String × List String),
      split_log input_path lpf lines = .ok chunks ∧
      chunks.length = (lines.length + lpf.toNat - 1) / lpf.toNat ∧
      (chunks.map Prod.snd).flatten = lines ∧
      (∀ c ∈ (chunks.map Prod.snd).dropLast, c.length = lpf.toNat) ∧
      (∀ c ∈ chunks.map Prod.snd, c.length ≤ lpf.toNat ∧ c ≠ []) ∧
      chunks.map Prod.fst = (List.range chunks.length).map (fun i =>
        (splitext (basename input_path)).1 ++ toString (i + 1) ++
          (if (splitext (basename input_path)).2 = "" then ".log"
            else (splitext (basename input_path)).2)) ∧
      (lines = [] → chunks = []) := by
  have hpos' : 0 < lpf.toNat := by omega
  have hfuel : lines.length ≤ lines.length + 1 := Nat.le_succ _
  have hsnd : (Prod.snd ∘ (fun p : Nat × List String =>
      (split_out_name input_path (p.1 + 1), p.2))) = Prod.snd := rfl
  refine ⟨(splitChunksGo lpf.toNat (lines.length + 1) lines).enum.map
    (fun p => (split_out_name input_path (p.1 + 1), p.2)), ?_, ?_, ?_, ?_, ?_, ?_, ?_⟩
  · unfold split_log
    rw [if_neg (not_le.mpr hpos)]
  · rw [List.length_map, List.enum_length]
    exact splitChunksGo_length lpf.toNat hpos' _ lines hfuel
  · rw [List.map_map, hsnd, List.enum_map_snd]
    exact splitChunksGo_join lpf.toNat hpos' _ lines hfuel
  · rw [List.map_map, hsnd, List.enum_map_snd]
    exact splitChunksGo_dropLast lpf.toNat hpos' _ lines hfuel
  · rw [List.map_map, hsnd, List.enum_map_snd]
    exact splitChunksGo_mem lpf.toNat hpos' _ lines hfuel
  · rw [List.map_map, List.length_map, List.enum_length]
    have hfst : (Prod.fst ∘ (fun p : Nat × List String =>
        (split_out_name input_path (p.1 + 1), p.2))) =
        ((fun i => (splitext (basename input_path)).1 ++ toString (i + 1) ++
          (if (splitext (basename input_path)).2 = "" then ".log"
            else (splitext (basename input_path)).2)) ∘ Prod.fst) := by
      funext p
      simp [split_out_name, split_ext_effective]
    rw [hfst, ← List.map_map, List.enum_map_fst]
  · intro h
    subst h
    rfl

/-- Witness for C10 (amended): the theorem applied to `x.log` split in
chunks of two lines. -/
theorem C10_witness :
    ∃ chunks : List (String × List String),
      split_log "x.log" 2 ["1\n", "2\n", "3\n"] = .ok chunks ∧
      chunks.length =
        ((["1\n", "2\n", "3\n"] : List String).length + (2 : Int).toNat - 1) /
          (2 : Int).toNat ∧
      (chunks.map Prod.snd).flatten = ["1\n", "2\n", "3\n"] ∧
      (∀ c ∈ (chunks.map Prod.snd).dropLast, c.length = (2 : Int).toNat) ∧
      (∀ c ∈ chunks.map Prod.snd, c.length ≤ (2 : Int).toNat ∧ c ≠ []) ∧
      chunks.map Prod.fst = (List.range chunks.length).map (fun i =>
        (splitext (basename "x.log")).1 ++ toString (i + 1) ++
          (if (splitext (basename "x.log")).2 = "" then ".log"
            else (splitext (basename "x.log")).2)) ∧
      ((["1\n", "2\n", "3\n"] : List String) = [] → chunks = []) :=
  C10_split_log "x.log" 2 ["1\n", "2\n", "3\n"] (by decide)

end LogGen
